import Mathlib

/-!
Formal model of the timestream-neptune analytics stack (repository
cdkconf2025-vibe-coding-fes): a shallow embedding of the two inline Lambda
handlers of lib/timestream-neptune-stack.ts (the data-processor pipeline and
the query function), of the Kinesis event-source and CloudWatch alarm
configuration declared by the stack, and of the managed-service contracts the
stack configures (Timestream rejected-record diversion, S3 object put,
CloudWatch alarm evaluation, Kinesis batch retry). Components whose behaviour
is implemented by a managed service rather than by repository code are marked
"Modelled from the spec" and follow the specification's wording for that
service contract.
-/

/- ===== Lexicographic string order (executable) =====
Timestream's ORDER BY on a varchar column is lexicographic by code point.
We use an executable comparison on the character lists so that concrete
instances evaluate inside the kernel. -/

def charListLe : List Char → List Char → Bool
  | [], _ => true
  | _ :: _, [] => false
  | a :: as, b :: bs => if a = b then charListLe as bs else decide (a < b)

def strLe (s t : String) : Bool := charListLe s.data t.data

def strLeP (s t : String) : Prop := strLe s t = true

def strLtP (s t : String) : Prop := strLeP s t ∧ s ≠ t

instance : DecidableRel strLeP :=
  fun s t => inferInstanceAs (Decidable (strLe s t = true))

namespace QueryService

/- ===== Query function (inline code of QueryFunction, lib/timestream-neptune-stack.ts) ===== -/

/-- A measurement point as stored in the recent-window store: the stored
`time` (epoch millis) and the double value of the named measure. -/
structure DataPoint where
  time : Int
  measureName : String
  value : ℚ
deriving DecidableEq

/-- One output row of the aggregation query: SELECT measure_name,
AVG(measure_value::double) as avg_value, MAX(..) as max_value,
MIN(..) as min_value, COUNT(*) as count. -/
structure MetricsRow where
  measure_name : String
  avg_value : ℚ
  max_value : ℚ
  min_value : ℚ
  count : ℕ
deriving DecidableEq

/-- The success body built by query_timestream_metrics:
metrics list plus the service's QueryId. -/
structure QueryResultBody where
  metrics : List MetricsRow
  query_id : String
deriving DecidableEq

/-- The JSON body of the handler's HTTP response: either a query result or
the structured error object with an `error` field. -/
inductive QueryBody where
  | result (b : QueryResultBody)
  | errorBody (msg : String)
deriving DecidableEq

structure HttpResponse where
  statusCode : ℕ
  body : QueryBody
deriving DecidableEq

/-- The API-Gateway event as read by the handler: an optional
queryStringParameters dictionary. -/
structure QueryEvent where
  queryStringParameters : Option (List (String × String))
deriving DecidableEq

/-- The lookback window of the templated query: WHERE time > ago(1h),
in epoch millis. -/
def windowMillis : Int := 3600000

/-- The rows of the store selected by WHERE time > ago(1h). -/
def recentPoints (now : Int) (db : List DataPoint) : List DataPoint :=
  db.filter (fun p => decide (now - windowMillis < p.time))

/-- The measure_value::double column restricted to one GROUP BY group. -/
def groupValues (name : String) (ps : List DataPoint) : List ℚ :=
  (ps.filter (fun p => decide (p.measureName = name))).map DataPoint.value

/-- MAX over a group (groups are nonempty by construction). -/
def listMax : List ℚ → ℚ
  | [] => 0
  | [a] => a
  | a :: b :: r => max a (listMax (b :: r))

/-- MIN over a group (groups are nonempty by construction). -/
def listMin : List ℚ → ℚ
  | [] => 0
  | [a] => a
  | a :: b :: r => min a (listMin (b :: r))

/-- One aggregation row for one measure name. -/
def aggRow (name : String) (vals : List ℚ) : MetricsRow :=
  { measure_name := name
    avg_value := vals.sum / (vals.length : ℚ)
    max_value := listMax vals
    min_value := listMin vals
    count := vals.length }

/-- Denotation of the single templated SQL query executed by
query_timestream_metrics: group the points of the last hour by measure name,
aggregate avg/max/min/count, order by measure_name ascending; the handler
wraps the rows with the response's QueryId. -/
def query_timestream_metrics (now : Int) (queryId : String) (db : List DataPoint) :
    QueryResultBody :=
  let recent := recentPoints now db
  let names := List.insertionSort strLeP (recent.map DataPoint.measureName).dedup
  { metrics := names.map (fun n => aggRow n (groupValues n recent))
    query_id := queryId }

/-- The structured error result produced for an unsupported query type,
wrapped in the 200 response the handler always returns on the non-raising
path. -/
def unsupportedResponse : HttpResponse :=
  { statusCode := 200, body := QueryBody.errorBody "Unsupported query type" }

/-- The inline handler of QueryFunction. Reads
event.get('queryStringParameters', dict()).get('type', 'metrics'); runs
query_timestream_metrics for 'metrics', otherwise builds the unsupported-type
error result. The second component counts the queries issued against the
store by this invocation. -/
def handler (now : Int) (queryId : String) (db : List DataPoint)
    (event : QueryEvent) : HttpResponse × ℕ :=
  let qsp := event.queryStringParameters.getD []
  let query_type := (List.lookup "type" qsp).getD "metrics"
  if query_type = "metrics" then
    ({ statusCode := 200
       body := QueryBody.result (query_timestream_metrics now queryId db) }, 1)
  else
    (unsupportedResponse, 0)

end QueryService

namespace DataProcessor

/- ===== Data-processor pipeline (inline code of DataProcessorFunction,
lib/timestream-neptune-stack.ts) ===== -/

/-- A decoded Kinesis payload: data.get('source', 'unknown') and
data.get('metrics', dict()). Metric values are carried as the strings they
become under str(metric_value), which is the only use the pipeline makes of
them. -/
structure IngestRecord where
  source : Option String
  metrics : List (String × String)
deriving DecidableEq

/-- One record dict built by the loop of write_to_timestream. -/
structure TsRecord where
  Time : ℕ
  TimeUnit : String
  MeasureName : String
  MeasureValue : String
  MeasureValueType : String
  dimSource : String
  dimRegion : String
deriving DecidableEq

/-- The records list built by write_to_timestream: one record per
(metric name, metric value) pair, all carrying the single current_time read
before the loop. -/
def buildRecords (currentTime : ℕ) (region : String) (data : IngestRecord) :
    List TsRecord :=
  data.metrics.map (fun m =>
    { Time := currentTime
      TimeUnit := "MILLISECONDS"
      MeasureName := m.1
      MeasureValue := m.2
      MeasureValueType := "DOUBLE"
      dimSource := data.source.getD "unknown"
      dimRegion := region })

/-- The write_records calls issued by write_to_timestream: one call carrying
all the record's points when the list is non-empty (the `if records:` guard),
no call otherwise. -/
def write_to_timestream (currentTime : ℕ) (region : String)
    (data : IngestRecord) : List (List TsRecord) :=
  let records := buildRecords currentTime region data
  if records.isEmpty then [] else [records]

/-- Modelled from the spec: parsing a measure value as a double, the
validation the Durable Sink applies per point (an optionally signed decimal
literal; anything else fails validation). -/
def digitsVal (l : List Char) : ℕ :=
  l.foldl (fun a c => 10 * a + (c.toNat - '0'.toNat)) 0

/-- Splits a character list at the first dot, if any. -/
def splitAtDot : List Char → List Char × Option (List Char)
  | [] => ([], none)
  | c :: t =>
    if c = '.' then ([], some t)
    else
      let r := splitAtDot t
      (c :: r.1, r.2)

/-- Modelled from the spec: unsigned decimal-literal parsing used by the
Durable Sink's measure_value validation. -/
def parseUnsignedDouble (l : List Char) : Option ℚ :=
  match splitAtDot l with
  | (ip, none) =>
    if !ip.isEmpty && ip.all Char.isDigit then some (digitsVal ip) else none
  | (ip, some fp) =>
    if !ip.isEmpty && !fp.isEmpty && ip.all Char.isDigit && fp.all Char.isDigit then
      some ((digitsVal ip : ℚ) + (digitsVal fp : ℚ) / ((10 : ℚ) ^ fp.length))
    else none

/-- Modelled from the spec: measure_value must parse as a double. -/
def parseDouble (s : String) : Option ℚ :=
  match s.data with
  | '-' :: rest => (parseUnsignedDouble rest).map Neg.neg
  | l => parseUnsignedDouble l

/-- Modelled from the spec: the Durable Sink's write endpoint, whose
rejected-record side channel the stack configures via
magneticStoreRejectedDataLocation (rejected-data/ prefix of the data bucket).
Each point whose measure_value parses as a double commits; each point that
fails validation is diverted to the quarantine sink instead of aborting the
batch. Returns (points written, points diverted). -/
def sinkWrite (rs : List TsRecord) : List TsRecord × List TsRecord :=
  (rs.filter (fun r => (parseDouble r.MeasureValue).isSome),
   rs.filter (fun r => (parseDouble r.MeasureValue).isNone))

/-- Total number of (record, metric) pairs in a batch. -/
def pairCount (batch : List IngestRecord) : ℕ :=
  (batch.map (fun r => r.metrics.length)).sum

/-- Points of a batch committed by the Durable Sink. -/
def writtenCount (now : ℕ) (region : String) (batch : List IngestRecord) : ℕ :=
  (batch.map (fun r => (sinkWrite (buildRecords now region r)).1.length)).sum

/-- Points of a batch diverted to the quarantine sink. -/
def divertedCount (now : ℕ) (region : String) (batch : List IngestRecord) : ℕ :=
  (batch.map (fun r => (sinkWrite (buildRecords now region r)).2.length)).sum

/-- The S3 archive key built by archive_to_s3:
raw-data/YYYY/MM/DD/sequenceNumber.json. -/
def archiveKey (date seq : String) : String :=
  "raw-data/" ++ date ++ "/" ++ seq ++ ".json"

/-- The archive bucket, observed as a key-to-object mapping. -/
abbrev S3Store : Type := List (String × IngestRecord)

/-- S3 PutObject: stores the body under the key, replacing any previous
object at that key. -/
def putObject (s : S3Store) (k : String) (v : IngestRecord) : S3Store :=
  (k, v) :: s.filter (fun kv => !(decide (kv.1 = k)))

def lookupStore (s : S3Store) (k : String) : Option IngestRecord :=
  List.lookup k s

/-- archive_to_s3: puts json.dumps(data) at the key derived from the current
date and the record's log sequence number. -/
def archive_to_s3 (s : S3Store) (date : String) (data : IngestRecord)
    (seq : String) : S3Store :=
  putObject s (archiveKey date seq) data

/-- One entry of the Kinesis event: the encoded payload and the log
sequence number. -/
structure KinesisEntry where
  data : String
  sequenceNumber : String
deriving DecidableEq

/-- The side effects of one handler invocation: the write_records calls
issued, in order, and the archive bucket contents. -/
structure ProcState where
  tsCalls : List (List TsRecord)
  s3 : S3Store
deriving DecidableEq

/-- Outcome of one handler invocation: normal return, or the re-raised
exception together with the side effects already performed. -/
inductive HandlerResult where
  | ok (st : ProcState)
  | error (st : ProcState)
deriving DecidableEq

/-- The per-record body of the handler loop: write_to_timestream(payload)
then archive_to_s3(payload, sequenceNumber). -/
def stepRecord (now : ℕ) (region date : String) (st : ProcState)
    (rec : IngestRecord) (seq : String) : ProcState :=
  { tsCalls := st.tsCalls ++ write_to_timestream now region rec
    s3 := archive_to_s3 st.s3 date rec seq }

/-- The handler of DataProcessorFunction: iterates the event's records,
json.loads each payload (decode), and fans out to the two sinks; a decode
failure raises, so the remaining entries are not processed and the
invocation fails. -/
def processEntries (decode : String → Option IngestRecord) (now : ℕ)
    (region date : String) : List KinesisEntry → ProcState → HandlerResult
  | [], st => HandlerResult.ok st
  | e :: rest, st =>
    match decode e.data with
    | none => HandlerResult.error st
    | some rec =>
      processEntries decode now region date rest
        (stepRecord now region date st rec e.sequenceNumber)

/-- The state reached by processing a list of entries whose payloads all
decode (entries that fail to decode are skipped by this fold; it is used to
describe the effects of the prefix before a failure). -/
def processOk (decode : String → Option IngestRecord) (now : ℕ)
    (region date : String) (entries : List KinesisEntry) (st : ProcState) :
    ProcState :=
  entries.foldl
    (fun s e =>
      match decode e.data with
      | some rec => stepRecord now region date s rec e.sequenceNumber
      | none => s)
    st

inductive StartingPosition where
  | LATEST
  | TRIM_HORIZON
deriving DecidableEq

/-- The KinesisEventSource properties attached to DataProcessorFunction. -/
structure EventSourceConfig where
  batchSize : ℕ
  startingPosition : StartingPosition
  retryAttempts : ℕ
deriving DecidableEq

/-- addEventSource(new KinesisEventSource(dataStream, batchSize 10,
startingPosition LATEST, retryAttempts 3)). -/
def dataProcessorEventSource : EventSourceConfig :=
  { batchSize := 10
    startingPosition := StartingPosition.LATEST
    retryAttempts := 3 }

/-- Modelled from the spec: the ordered-log transport re-runs a failed batch
invocation, up to the configured number of retry attempts, and then surfaces
the failure as a failed invocation. Returns the number of attempts made
together with the surfaced result; `made` counts the attempts already made. -/
def retryLoop : ℕ → (ℕ → HandlerResult) → ℕ → ℕ × HandlerResult
  | 0, attempt, made => (made + 1, attempt made)
  | r + 1, attempt, made =>
    match attempt made with
    | HandlerResult.ok st => (made + 1, HandlerResult.ok st)
    | HandlerResult.error _ => retryLoop r attempt (made + 1)

/- ===== Concrete sample data for witnesses ===== -/

/-- The specification's worked example record. -/
def sampleRecord : IngestRecord :=
  { source := some "sensor-1", metrics := [("temp", "21.5"), ("humidity", "bad")] }

/-- A record with an empty metrics map. -/
def emptyRecord : IngestRecord :=
  { source := some "sensor-2", metrics := [] }

/-- A sample decoder: decodes "good" to the sample record, "empty" to the
empty record, and fails on everything else. -/
def sampleDecode (s : String) : Option IngestRecord :=
  if s = "good" then some sampleRecord
  else if s = "empty" then some emptyRecord
  else none

end DataProcessor

namespace Monitoring

/- ===== CloudWatch alarms (lib/timestream-neptune-stack.ts and
MonitoringConstruct of lib/constructs) ===== -/

inductive AlarmState where
  | OK
  | ALARM
  | INSUFFICIENT_DATA
deriving DecidableEq

/-- One evaluation period's observation: the observed statistic, or a
missing-data period. -/
inductive Sample where
  | value (v : ℚ)
  | missing
deriving DecidableEq

/-- The alarm properties the stack declares. -/
structure AlarmConfig where
  threshold : ℚ
  evaluationPeriods : ℕ
  treatMissingAsNotBreaching : Bool
deriving DecidableEq

/-- NeptuneConnectionsAlarm: threshold 80, evaluationPeriods 2,
treatMissingData NOT_BREACHING. -/
def neptuneConnectionsAlarm : AlarmConfig :=
  { threshold := 80, evaluationPeriods := 2, treatMissingAsNotBreaching := true }

/-- LambdaErrorAlarm on the data processor's error metric: threshold 5,
evaluationPeriods 2. -/
def lambdaErrorAlarm : AlarmConfig :=
  { threshold := 5, evaluationPeriods := 2, treatMissingAsNotBreaching := false }

/-- QueryFunctionThrottlesAlarm: threshold 1, evaluationPeriods 1. -/
def queryFunctionThrottlesAlarm : AlarmConfig :=
  { threshold := 1, evaluationPeriods := 1, treatMissingAsNotBreaching := false }

/-- QueryFunctionDurationAlarm: threshold 30000, evaluationPeriods 3. -/
def queryFunctionDurationAlarm : AlarmConfig :=
  { threshold := 30000, evaluationPeriods := 3, treatMissingAsNotBreaching := false }

/-- The monitor's evaluation state per metric: the alarm state plus the
counters of consecutive breaching and consecutive non-breaching periods. -/
structure AlarmFsm where
  state : AlarmState
  breachStreak : ℕ
  okStreak : ℕ
deriving DecidableEq

def alarmInit : AlarmFsm :=
  { state := AlarmState.OK, breachStreak := 0, okStreak := 0 }

/-- Whether one sample counts as breaching: the statistic exceeds the
threshold; a missing-data period breaches unless the alarm treats missing
data as not breaching. -/
def breaches (cfg : AlarmConfig) : Sample → Bool
  | Sample.value v => decide (cfg.threshold < v)
  | Sample.missing => !cfg.treatMissingAsNotBreaching

/-- Modelled from the spec: one evaluation period of the alarm state
machine. The state moves to ALARM only when the breach streak reaches the
configured number of consecutive evaluation periods, and back to OK only
when the non-breaching streak does. -/
def alarmStep (cfg : AlarmConfig) (s : AlarmFsm) (x : Sample) : AlarmFsm :=
  if breaches cfg x then
    { state :=
        if cfg.evaluationPeriods ≤ s.breachStreak + 1 then AlarmState.ALARM
        else s.state
      breachStreak := s.breachStreak + 1
      okStreak := 0 }
  else
    { state :=
        if cfg.evaluationPeriods ≤ s.okStreak + 1 then AlarmState.OK
        else s.state
      breachStreak := 0
      okStreak := s.okStreak + 1 }

/-- A trace of evaluation periods, applied in order. -/
def runAlarm (cfg : AlarmConfig) (s : AlarmFsm) (xs : List Sample) : AlarmFsm :=
  xs.foldl (alarmStep cfg) s

/-- Length of the maximal all-true suffix of a boolean trace. -/
def trueStreak (bs : List Bool) : ℕ :=
  bs.foldl (fun n b => if b then n + 1 else 0) 0

/-- The trace contains a run of n consecutive true periods. -/
def hasConsecRun (n : ℕ) (bs : List Bool) : Prop :=
  ∃ l m r, bs = l ++ m ++ r ∧ m.length = n ∧ ∀ b ∈ m, b = true

end Monitoring

/- ===== String-order lemmas ===== -/

theorem charListLe_trans :
    ∀ as bs cs, charListLe as bs = true → charListLe bs cs = true →
      charListLe as cs = true
  | [], _, _ => fun _ _ => rfl
  | _ :: _, [], _ => fun h _ => by simp [charListLe] at h
  | _ :: _, _ :: _, [] => fun _ h => by simp [charListLe] at h
  | a :: as, b :: bs, c :: cs => fun h1 h2 => by
    by_cases hab : a = b <;> by_cases hbc : b = c
    · subst hab; subst hbc
      simp only [charListLe, if_pos rfl] at h1 h2 ⊢
      exact charListLe_trans as bs cs h1 h2
    · subst hab
      simp only [charListLe, if_pos rfl, if_neg hbc] at h2 ⊢
      exact h2
    · subst hbc
      simp only [charListLe, if_neg hab] at h1 ⊢
      exact h1
    · simp only [charListLe, if_neg hab] at h1
      simp only [charListLe, if_neg hbc] at h2
      have hac : a < c := lt_trans (of_decide_eq_true h1) (of_decide_eq_true h2)
      have hne : a ≠ c := ne_of_lt hac
      simp only [charListLe, if_neg hne]
      exact decide_eq_true hac

theorem charListLe_total : ∀ as bs, charListLe as bs = true ∨ charListLe bs as = true
  | [], _ => Or.inl rfl
  | _ :: _, [] => Or.inr rfl
  | a :: as, b :: bs => by
    by_cases hab : a = b
    · subst hab
      simpa [charListLe] using charListLe_total as bs
    · rcases lt_trichotomy a b with h | h | h
      · left; simp [charListLe, hab, h]
      · exact absurd h hab
      · right
        have hba : b ≠ a := fun e => hab e.symm
        simp [charListLe, hba, h, not_lt_of_gt h]

theorem charListLe_antisymm :
    ∀ as bs, charListLe as bs = true → charListLe bs as = true → as = bs
  | [], [] => fun _ _ => rfl
  | [], _ :: _ => fun _ h => by simp [charListLe] at h
  | _ :: _, [] => fun h _ => by simp [charListLe] at h
  | a :: as, b :: bs => fun h1 h2 => by
    by_cases hab : a = b
    · subst hab
      simp only [charListLe, if_pos rfl] at h1 h2
      rw [charListLe_antisymm as bs h1 h2]
    · have hba : b ≠ a := fun e => hab e.symm
      simp only [charListLe, if_neg hab] at h1
      simp only [charListLe, if_neg hba] at h2
      exact absurd (of_decide_eq_true h2) (not_lt_of_gt (of_decide_eq_true h1))

theorem string_data_inj {s t : String} (h : s.data = t.data) : s = t := by
  cases s; cases t; exact congrArg String.mk h

instance : IsTotal String strLeP := ⟨fun a b => charListLe_total a.data b.data⟩

instance : IsTrans String strLeP :=
  ⟨fun a b c h1 h2 => charListLe_trans a.data b.data c.data h1 h2⟩

theorem sortedNames_strict (l : List String) (hnd : l.Nodup) :
    (List.insertionSort strLeP l).Sorted (fun a b => strLeP a b ∧ a ≠ b) := by
  have hs := List.sorted_insertionSort strLeP l
  have hnd2 : (List.insertionSort strLeP l).Nodup :=
    (List.perm_insertionSort strLeP l).nodup_iff.mpr hnd
  exact hs.and hnd2

/- ===== QueryService lemmas ===== -/

namespace QueryService

theorem handler_unsupported (now : Int) (qid : String) (db : List DataPoint)
    (qsp : List (String × String)) (t : String)
    (ht : List.lookup "type" qsp = some t) (hm : t ≠ "metrics") :
    handler now qid db ⟨some qsp⟩ = (unsupportedResponse, 0) := by
  simp [handler, ht, hm]

theorem handler_metrics (now : Int) (qid : String) (db : List DataPoint)
    (qsp : List (String × String))
    (h : (List.lookup "type" qsp).getD "metrics" = "metrics") :
    handler now qid db ⟨some qsp⟩ =
      ({ statusCode := 200
         body := QueryBody.result (query_timestream_metrics now qid db) }, 1) := by
  simp [handler, h]

theorem lookup_append_ne (k p v : String) (h : k ≠ p) :
    ∀ l : List (String × String),
      List.lookup k (l ++ [(p, v)]) = List.lookup k l
  | [] => by simp [List.lookup, beq_eq_false_iff_ne.mpr h]
  | (a, b) :: xs => by
    by_cases hx : k = a
    · simp [List.lookup, hx]
    · simp only [List.cons_append, List.lookup, beq_eq_false_iff_ne.mpr hx]
      exact lookup_append_ne k p v h xs

theorem listMax_mem : ∀ l : List ℚ, l ≠ [] → listMax l ∈ l
  | [], h => absurd rfl h
  | [a], _ => by simp [listMax]
  | a :: b :: r, _ => by
    rcases max_choice a (listMax (b :: r)) with h | h
    · simp [listMax, h]
    · have hm := listMax_mem (b :: r) (by simp)
      rw [show listMax (a :: b :: r) = max a (listMax (b :: r)) from rfl, h]
      exact List.mem_cons_of_mem a hm

theorem le_listMax : ∀ l : List ℚ, ∀ v ∈ l, v ≤ listMax l
  | [], v, hv => absurd hv (List.not_mem_nil v)
  | [a], v, hv => by
    rcases List.mem_singleton.mp hv with rfl
    simp [listMax]
  | a :: b :: r, v, hv => by
    rcases List.mem_cons.mp hv with rfl | hv2
    · exact le_max_left v (listMax (b :: r))
    · exact le_trans (le_listMax (b :: r) v hv2) (le_max_right a (listMax (b :: r)))

theorem listMin_mem : ∀ l : List ℚ, l ≠ [] → listMin l ∈ l
  | [], h => absurd rfl h
  | [a], _ => by simp [listMin]
  | a :: b :: r, _ => by
    rcases min_choice a (listMin (b :: r)) with h | h
    · simp [listMin, h]
    · have hm := listMin_mem (b :: r) (by simp)
      rw [show listMin (a :: b :: r) = min a (listMin (b :: r)) from rfl, h]
      exact List.mem_cons_of_mem a hm

theorem listMin_le : ∀ l : List ℚ, ∀ v ∈ l, listMin l ≤ v
  | [], v, hv => absurd hv (List.not_mem_nil v)
  | [a], v, hv => by
    rcases List.mem_singleton.mp hv with rfl
    simp [listMin]
  | a :: b :: r, v, hv => by
    rcases List.mem_cons.mp hv with rfl | hv2
    · exact min_le_left v (listMin (b :: r))
    · exact le_trans (min_le_right a (listMin (b :: r))) (listMin_le (b :: r) v hv2)

theorem metrics_names_eq (now : Int) (qid : String) (db : List DataPoint) :
    (query_timestream_metrics now qid db).metrics.map MetricsRow.measure_name =
      List.insertionSort strLeP
        ((recentPoints now db).map DataPoint.measureName).dedup := by
  unfold query_timestream_metrics
  simp only [List.map_map]
  have h1 : (MetricsRow.measure_name ∘
      fun n => aggRow n (groupValues n (recentPoints now db))) = id := by
    funext x; rfl
  rw [h1, List.map_id]

theorem mem_metrics_names (now : Int) (qid : String) (db : List DataPoint)
    (n : String) :
    n ∈ (query_timestream_metrics now qid db).metrics.map MetricsRow.measure_name ↔
      ∃ p ∈ db, now - windowMillis < p.time ∧ p.measureName = n := by
  rw [metrics_names_eq, (List.perm_insertionSort strLeP _).mem_iff,
    List.mem_dedup, List.mem_map]
  constructor
  · rintro ⟨p, hp, rfl⟩
    have hf := List.mem_filter.mp hp
    exact ⟨p, hf.1, of_decide_eq_true hf.2, rfl⟩
  · rintro ⟨p, hp, ht, rfl⟩
    exact ⟨p, List.mem_filter.mpr ⟨hp, decide_eq_true ht⟩, rfl⟩

theorem mem_metrics_rows (now : Int) (qid : String) (db : List DataPoint)
    (row : MetricsRow)
    (hrow : row ∈ (query_timestream_metrics now qid db).metrics) :
    row = aggRow row.measure_name
        (groupValues row.measure_name (recentPoints now db))
    ∧ groupValues row.measure_name (recentPoints now db) ≠ [] := by
  unfold query_timestream_metrics at hrow
  simp only [List.mem_map] at hrow
  rcases hrow with ⟨n, hn, hrowEq⟩
  have hname : row.measure_name = n := by rw [← hrowEq]; rfl
  subst hname
  constructor
  · exact hrowEq.symm
  · have hn2 : row.measure_name ∈
        ((recentPoints now db).map DataPoint.measureName).dedup :=
      (List.perm_insertionSort strLeP _).subset hn
    rw [List.mem_dedup, List.mem_map] at hn2
    rcases hn2 with ⟨p, hp, hpn⟩
    have : p.value ∈ groupValues row.measure_name (recentPoints now db) :=
      List.mem_map_of_mem DataPoint.value
        (List.mem_filter.mpr ⟨hp, decide_eq_true hpn⟩)
    exact List.ne_nil_of_mem this

theorem metrics_sorted (now : Int) (qid : String) (db : List DataPoint) :
    ((query_timestream_metrics now qid db).metrics.map
      MetricsRow.measure_name).Sorted strLtP := by
  rw [metrics_names_eq]
  exact sortedNames_strict _ (List.nodup_dedup _)

end QueryService

/- ===== DataProcessor lemmas ===== -/

namespace DataProcessor

theorem sinkWrite_length (rs : List TsRecord) :
    (sinkWrite rs).1.length + (sinkWrite rs).2.length = rs.length := by
  induction rs with
  | nil => rfl
  | cons r t ih =>
    cases h : parseDouble r.MeasureValue <;>
      simp [sinkWrite, List.filter_cons, h] at ih ⊢ <;> omega

theorem buildRecords_length (now : ℕ) (region : String) (rec : IngestRecord) :
    (buildRecords now region rec).length = rec.metrics.length := by
  simp [buildRecords]

theorem counts_partition (now : ℕ) (region : String)
    (batch : List IngestRecord) :
    writtenCount now region batch + divertedCount now region batch =
      pairCount batch := by
  induction batch with
  | nil => rfl
  | cons r t ih =>
    simp only [writtenCount, divertedCount, pairCount, List.map_cons,
      List.sum_cons] at ih ⊢
    have h1 := sinkWrite_length (buildRecords now region r)
    have h2 := buildRecords_length now region r
    omega

theorem mem_sinkWrite_written {rs : List TsRecord} {r : TsRecord} (hr : r ∈ rs)
    (h : (parseDouble r.MeasureValue).isSome = true) :
    r ∈ (sinkWrite rs).1 ∧ r ∉ (sinkWrite rs).2 := by
  refine ⟨List.mem_filter.mpr ⟨hr, h⟩, fun hmem => ?_⟩
  have h2 := (List.mem_filter.mp hmem).2
  rw [Option.isNone_iff_eq_none] at h2
  rw [h2] at h
  exact Bool.noConfusion h

theorem mem_sinkWrite_diverted {rs : List TsRecord} {r : TsRecord} (hr : r ∈ rs)
    (h : (parseDouble r.MeasureValue).isNone = true) :
    r ∈ (sinkWrite rs).2 ∧ r ∉ (sinkWrite rs).1 := by
  refine ⟨List.mem_filter.mpr ⟨hr, h⟩, fun hmem => ?_⟩
  have h2 := (List.mem_filter.mp hmem).2
  rw [Option.isNone_iff_eq_none] at h
  rw [h] at h2
  exact Bool.noConfusion h2

theorem processEntries_append_ok (decode : String → Option IngestRecord)
    (now : ℕ) (region date : String) :
    ∀ (pre l2 : List KinesisEntry) (st : ProcState),
      (∀ x ∈ pre, (decode x.data).isSome = true) →
      processEntries decode now region date (pre ++ l2) st =
        processEntries decode now region date l2
          (processOk decode now region date pre st)
  | [], l2, st, _ => by simp [processOk]
  | e :: pre, l2, st, h => by
    have he : (decode e.data).isSome = true := h e (List.mem_cons_self e pre)
    rcases Option.isSome_iff_exists.mp he with ⟨rec, hrec⟩
    simp only [List.cons_append, processEntries, processOk, List.foldl_cons,
      hrec]
    exact processEntries_append_ok decode now region date pre l2 _
      (fun x hx => h x (List.mem_cons_of_mem e hx))

theorem processEntries_error_head (decode : String → Option IngestRecord)
    (now : ℕ) (region date : String) (e : KinesisEntry)
    (rest : List KinesisEntry) (st : ProcState)
    (he : decode e.data = none) :
    processEntries decode now region date (e :: rest) st =
      HandlerResult.error st := by
  simp [processEntries, he]

theorem retryLoop_const_error (st : ProcState) (attempt : ℕ → HandlerResult)
    (h : ∀ i, attempt i = HandlerResult.error st) :
    ∀ r made : ℕ, retryLoop r attempt made = (made + r + 1, HandlerResult.error st)
  | 0, made => by
    simp [retryLoop, h made]
  | r + 1, made => by
    simp only [retryLoop, h made]
    rw [retryLoop_const_error st attempt h r (made + 1)]
    congr 1
    omega

theorem filter_self_idem {α : Type} (p : α → Bool) (l : List α) :
    (l.filter p).filter p = l.filter p := by
  induction l with
  | nil => rfl
  | cons a t ih =>
    cases hp : p a <;> simp [List.filter_cons, hp, ih]

theorem putObject_idem (s : S3Store) (k : String) (v : IngestRecord) :
    putObject (putObject s k v) k v = putObject s k v := by
  unfold putObject
  rw [List.filter_cons]
  have hc : (!decide ((k, v).1 = k)) = false := by simp
  rw [hc]
  simp [filter_self_idem]

theorem archiveKey_inj (d q1 q2 : String)
    (h : archiveKey d q1 = archiveKey d q2) : q1 = q2 := by
  unfold archiveKey at h
  have hd := congrArg String.data h
  simp only [String.data_append, List.append_assoc] at hd
  have h1 := List.append_cancel_left hd
  have h2 := List.append_cancel_left h1
  have h3 := List.append_cancel_left h2
  have h4 := List.append_cancel_right h3
  exact string_data_inj h4

theorem lookupStore_putObject (s : S3Store) (k : String) (v : IngestRecord) :
    lookupStore (putObject s k v) k = some v := by
  simp [lookupStore, putObject, List.lookup]

end DataProcessor

/- ===== Monitoring lemmas ===== -/

namespace Monitoring

theorem trueStreak_append (bs : List Bool) (b : Bool) :
    trueStreak (bs ++ [b]) = if b then trueStreak bs + 1 else 0 := by
  simp [trueStreak, List.foldl_append]

theorem trueStreak_suffix (bs : List Bool) :
    ∃ l m, bs = l ++ m ∧ m.length = trueStreak bs ∧ ∀ x ∈ m, x = true := by
  induction bs using List.reverseRecOn with
  | nil => exact ⟨[], [], rfl, rfl, by simp⟩
  | append_singleton bs b ih =>
    rcases ih with ⟨l, m, hbs, hlen, hall⟩
    cases b with
    | false =>
      refine ⟨bs ++ [false], [], by simp, ?_, by simp⟩
      simp [trueStreak_append]
    | true =>
      refine ⟨l, m ++ [true], by rw [hbs, List.append_assoc], ?_, ?_⟩
      · simp [trueStreak_append, hlen]
      · intro x hx
        rcases List.mem_append.mp hx with h | h
        · exact hall x h
        · simpa using h

theorem hasConsecRun_of_streak (n : ℕ) (bs : List Bool)
    (h : n ≤ trueStreak bs) : hasConsecRun n bs := by
  rcases trueStreak_suffix bs with ⟨l, m, hbs, hlen, hall⟩
  refine ⟨l ++ m.take (m.length - n), m.drop (m.length - n), [], ?_, ?_, ?_⟩
  · rw [List.append_nil, List.append_assoc, List.take_append_drop]
    exact hbs
  · rw [List.length_drop]
    omega
  · intro x hx
    exact hall x (List.mem_of_mem_drop hx)

theorem hasConsecRun_append (n : ℕ) (bs : List Bool) (b : Bool)
    (h : hasConsecRun n bs) : hasConsecRun n (bs ++ [b]) := by
  rcases h with ⟨l, m, r, hbs, hlen, hall⟩
  exact ⟨l, m, r ++ [b], by rw [hbs]; simp, hlen, hall⟩

theorem runAlarm_append_one (cfg : AlarmConfig) (s : AlarmFsm)
    (xs : List Sample) (x : Sample) :
    runAlarm cfg s (xs ++ [x]) = alarmStep cfg (runAlarm cfg s xs) x := by
  simp [runAlarm, List.foldl_append]

theorem runAlarm_inv (cfg : AlarmConfig) (xs : List Sample) :
    (runAlarm cfg alarmInit xs).breachStreak =
        trueStreak (xs.map (breaches cfg))
    ∧ ((runAlarm cfg alarmInit xs).state = AlarmState.ALARM →
        hasConsecRun cfg.evaluationPeriods (xs.map (breaches cfg))) := by
  induction xs using List.reverseRecOn with
  | nil => exact ⟨rfl, fun h => AlarmState.noConfusion h⟩
  | append_singleton xs x ih =>
    rcases ih with ⟨ihs, iha⟩
    rw [runAlarm_append_one, List.map_append]
    simp only [List.map_cons, List.map_nil]
    by_cases hb : breaches cfg x = true
    · rw [hb]
      constructor
      · simp [alarmStep, hb, trueStreak_append, ihs]
      · intro hA
        by_cases hN : cfg.evaluationPeriods ≤
            (runAlarm cfg alarmInit xs).breachStreak + 1
        · apply hasConsecRun_of_streak
          rw [trueStreak_append]
          simp only [if_true]
          omega
        · have hstate : (alarmStep cfg (runAlarm cfg alarmInit xs) x).state =
              (runAlarm cfg alarmInit xs).state := by
            simp [alarmStep, hb, hN]
          rw [hstate] at hA
          exact hasConsecRun_append _ _ _ (iha hA)
    · have hb2 : breaches cfg x = false := Bool.not_eq_true _ ▸ eq_false_of_ne_true hb
      rw [hb2]
      constructor
      · simp [alarmStep, hb2, trueStreak_append]
      · intro hA
        by_cases hN : cfg.evaluationPeriods ≤
            (runAlarm cfg alarmInit xs).okStreak + 1
        · have hstate : (alarmStep cfg (runAlarm cfg alarmInit xs) x).state =
              AlarmState.OK := by
            simp [alarmStep, hb2, hN]
          rw [hstate] at hA
          exact absurd hA (fun h => AlarmState.noConfusion h)
        · have hstate : (alarmStep cfg (runAlarm cfg alarmInit xs) x).state =
              (runAlarm cfg alarmInit xs).state := by
            simp [alarmStep, hb2, hN]
          rw [hstate] at hA
          exact hasConsecRun_append _ _ _ (iha hA)

end Monitoring

/- ===== Claim theorems ===== -/

namespace QueryService

/-- C1, counterexample: a request with type=aggregated and hours=1 against an
empty store does not return an empty metrics array; the inline handler
returns the structured unsupported-type error result (and issues no store
query), because the handler supports only the selector `metrics`. -/
theorem aggregated_query_counterexample :
    handler 0 "qid-0" [] ⟨some [("type", "aggregated"), ("hours", "1")]⟩ =
      (unsupportedResponse, 0) := rfl

/-- C1, amended: the Query Service accepts only the query-type selector
`metrics` (also the default when the parameter is absent); every other
selector, including `health` and `aggregated`, yields the structured
unsupported-type error result with no store query; the `hours` request
parameter is ignored (appending it never changes the response) and the
lookback window is fixed at 1 hour; in particular type=aggregated&hours=1
against an empty store returns the unsupported-type error result. -/
theorem query_selector_behavior (now : Int) (qid : String)
    (db : List DataPoint) (qsp : List (String × String)) :
    (∀ t : String, List.lookup "type" qsp = some t → t ≠ "metrics" →
      handler now qid db ⟨some qsp⟩ = (unsupportedResponse, 0))
    ∧ (List.lookup "type" qsp = none →
      handler now qid db ⟨some qsp⟩ =
        ({ statusCode := 200
           body := QueryBody.result (query_timestream_metrics now qid db) }, 1))
    ∧ (∀ hrs : String,
      handler now qid db ⟨some (qsp ++ [("hours", hrs)])⟩ =
        handler now qid db ⟨some qsp⟩)
    ∧ handler now qid [] ⟨some [("type", "aggregated"), ("hours", "1")]⟩ =
        (unsupportedResponse, 0) := by
  refine ⟨fun t ht hm => handler_unsupported now qid db qsp t ht hm,
    fun h => handler_metrics now qid db qsp (by rw [h]; rfl), ?_, rfl⟩
  intro hrs
  have hl := lookup_append_ne "type" "hours" hrs (by decide) qsp
  simp [handler, hl]

/-- C1 witness: the amended contract applied at a health request against an
empty store, and at a request whose parameters omit `type`. -/
theorem query_selector_behavior_witness :
    handler 0 "q" [] ⟨some [("type", "health")]⟩ = (unsupportedResponse, 0)
    ∧ handler 0 "q" [] ⟨some [("x", "1")]⟩ =
        ({ statusCode := 200
           body := QueryBody.result (query_timestream_metrics 0 "q" []) }, 1) :=
  ⟨(query_selector_behavior 0 "q" [] [("type", "health")]).1 "health" rfl
      (by decide),
   (query_selector_behavior 0 "q" [] [("x", "1")]).2.1 rfl⟩

/-- C5: an unsupported query-type selector yields the structured error
result with the message "Unsupported query type" (inside a 200 wrapper, not
a crash), and the handler issues no query against the store. -/
theorem unsupported_query_type_error (now : Int) (qid : String)
    (db : List DataPoint) (qsp : List (String × String)) (t : String)
    (ht : List.lookup "type" qsp = some t) (hm : t ≠ "metrics") :
    handler now qid db ⟨some qsp⟩ =
      ({ statusCode := 200
         body := QueryBody.errorBody "Unsupported query type" }, 0) :=
  handler_unsupported now qid db qsp t ht hm

/-- C5 witness: the contract applied at type=unknown. -/
theorem unsupported_query_type_error_witness :
    handler 0 "q5" [] ⟨some [("type", "unknown")]⟩ =
      ({ statusCode := 200
         body := QueryBody.errorBody "Unsupported query type" }, 0) :=
  unsupported_query_type_error 0 "q5" [] [("type", "unknown")] "unknown" rfl
    (by decide)

/-- C6: a successful metrics query executes a single aggregation grouped by
measure name over the points with time > now - window, returning rows
(measure_name, avg_value, max_value, min_value, count) ordered by
measure_name ascending, wrapped in a body carrying the metrics and the
query id; the handler issues exactly one store query for it. -/
theorem metrics_query_contract (now : Int) (qid : String)
    (db : List DataPoint) :
    (query_timestream_metrics now qid db).query_id = qid
    ∧ ((query_timestream_metrics now qid db).metrics.map
        MetricsRow.measure_name).Sorted strLtP
    ∧ (∀ n : String,
        n ∈ (query_timestream_metrics now qid db).metrics.map
            MetricsRow.measure_name ↔
          ∃ p ∈ db, now - windowMillis < p.time ∧ p.measureName = n)
    ∧ (∀ row ∈ (query_timestream_metrics now qid db).metrics,
        row.count = (groupValues row.measure_name (recentPoints now db)).length
        ∧ 0 < row.count
        ∧ row.avg_value * (row.count : ℚ) =
            (groupValues row.measure_name (recentPoints now db)).sum
        ∧ row.max_value ∈ groupValues row.measure_name (recentPoints now db)
        ∧ (∀ v ∈ groupValues row.measure_name (recentPoints now db),
            v ≤ row.max_value)
        ∧ row.min_value ∈ groupValues row.measure_name (recentPoints now db)
        ∧ (∀ v ∈ groupValues row.measure_name (recentPoints now db),
            row.min_value ≤ v))
    ∧ (∀ qsp : List (String × String),
        (List.lookup "type" qsp).getD "metrics" = "metrics" →
        handler now qid db ⟨some qsp⟩ =
          ({ statusCode := 200
             body := QueryBody.result (query_timestream_metrics now qid db) },
           1)) := by
  refine ⟨rfl, metrics_sorted now qid db, mem_metrics_names now qid db, ?_,
    fun qsp h => handler_metrics now qid db qsp h⟩
  intro row hrow
  rcases mem_metrics_rows now qid db row hrow with ⟨heq, hne⟩
  set vals := groupValues row.measure_name (recentPoints now db) with hv
  have hposlen : 0 < vals.length := List.length_pos.mpr hne
  have hcast : (vals.length : ℚ) ≠ 0 := by
    exact_mod_cast Nat.pos_iff_ne_zero.mp hposlen
  refine ⟨?_, ?_, ?_, ?_, ?_, ?_, ?_⟩
  · rw [heq]
    rfl
  · rw [heq]
    exact hposlen
  · rw [heq]
    exact div_mul_cancel₀ vals.sum hcast
  · rw [heq]
    exact listMax_mem vals hne
  · intro v hvv
    rw [heq]
    exact le_listMax vals v hvv
  · rw [heq]
    exact listMin_mem vals hne
  · intro v hvv
    rw [heq]
    exact listMin_le vals v hvv

/-- C6 witness: the contract applied to a one-point store inside the
window: the point's measure name appears among the rows, and a request
without a type parameter executes exactly one store query returning the
aggregation body. -/
theorem metrics_query_contract_witness :
    "cpu" ∈ (query_timestream_metrics 3600001 "q6"
        [⟨3600000, "cpu", 5⟩]).metrics.map MetricsRow.measure_name
    ∧ handler 3600001 "q6" [⟨3600000, "cpu", 5⟩] ⟨some []⟩ =
        ({ statusCode := 200
           body := QueryBody.result
             (query_timestream_metrics 3600001 "q6" [⟨3600000, "cpu", 5⟩]) },
         1) :=
  ⟨((metrics_query_contract 3600001 "q6" [⟨3600000, "cpu", 5⟩]).2.2.1
      "cpu").mpr ⟨⟨3600000, "cpu", 5⟩, by simp, by decide, rfl⟩,
   (metrics_query_contract 3600001 "q6" [⟨3600000, "cpu", 5⟩]).2.2.2.2 []
     rfl⟩

/-- C10: when the request carries query string parameters that omit `type`,
the handler defaults the selector to `metrics` and executes the metrics
query (one store query, result body), rather than returning an
unsupported-type error. -/
theorem missing_type_defaults_to_metrics (now : Int) (qid : String)
    (db : List DataPoint) (qsp : List (String × String))
    (h : List.lookup "type" qsp = none) :
    handler now qid db ⟨some qsp⟩ =
      ({ statusCode := 200
         body := QueryBody.result (query_timestream_metrics now qid db) },
       1) :=
  handler_metrics now qid db qsp (by rw [h]; rfl)

/-- C10 witness: parameters present but without `type`. -/
theorem missing_type_defaults_to_metrics_witness :
    handler 0 "q10" [] ⟨some [("hours", "2")]⟩ =
      ({ statusCode := 200
         body := QueryBody.result (query_timestream_metrics 0 "q10" []) },
       1) :=
  missing_type_defaults_to_metrics 0 "q10" [] [("hours", "2")] rfl

end QueryService

namespace DataProcessor

/-- C2: for every batch of valid IngestRecords, each (record, metric) pair
yields exactly one point that is either durably written or diverted to the
quarantine sink: written plus diverted equals the number of pairs, a point
whose measure value fails double-parsing is diverted (not written, and the
batch is not aborted), a point that parses is written (not diverted), and
every point lands in one of the two sinks — none is silently dropped. -/
theorem ingest_partition (now : ℕ) (region : String)
    (batch : List IngestRecord) :
    writtenCount now region batch + divertedCount now region batch =
        pairCount batch
    ∧ (∀ rec ∈ batch, ∀ r ∈ buildRecords now region rec,
        ((parseDouble r.MeasureValue).isSome = true →
          r ∈ (sinkWrite (buildRecords now region rec)).1 ∧
          r ∉ (sinkWrite (buildRecords now region rec)).2)
        ∧ ((parseDouble r.MeasureValue).isNone = true →
          r ∈ (sinkWrite (buildRecords now region rec)).2 ∧
          r ∉ (sinkWrite (buildRecords now region rec)).1)
        ∧ (r ∈ (sinkWrite (buildRecords now region rec)).1 ∨
           r ∈ (sinkWrite (buildRecords now region rec)).2)) := by
  refine ⟨counts_partition now region batch, ?_⟩
  intro rec _ r hr
  refine ⟨fun h => mem_sinkWrite_written hr h,
    fun h => mem_sinkWrite_diverted hr h, ?_⟩
  cases h : parseDouble r.MeasureValue with
  | none => exact Or.inr (List.mem_filter.mpr ⟨hr, by simp [h]⟩)
  | some q => exact Or.inl (List.mem_filter.mpr ⟨hr, by simp [h]⟩)

/-- C2 witness: the specification's worked example, source sensor-1 with
temp 21.5 and humidity "bad": counts partition (1 written + 1 diverted = 2
pairs), the temp point commits, the humidity point is diverted. -/
theorem ingest_partition_witness :
    writtenCount 0 "us-east-1" [sampleRecord] +
        divertedCount 0 "us-east-1" [sampleRecord] = pairCount [sampleRecord]
    ∧ (⟨0, "MILLISECONDS", "temp", "21.5", "DOUBLE", "sensor-1", "us-east-1"⟩ :
        TsRecord) ∈ (sinkWrite (buildRecords 0 "us-east-1" sampleRecord)).1
    ∧ (⟨0, "MILLISECONDS", "humidity", "bad", "DOUBLE", "sensor-1",
        "us-east-1"⟩ : TsRecord) ∈
        (sinkWrite (buildRecords 0 "us-east-1" sampleRecord)).2 :=
  ⟨(ingest_partition 0 "us-east-1" [sampleRecord]).1,
   (((ingest_partition 0 "us-east-1" [sampleRecord]).2 sampleRecord
      (by decide) _ (by decide)).1 (by decide)).1,
   (((ingest_partition 0 "us-east-1" [sampleRecord]).2 sampleRecord
      (by decide) _ (by decide)).2.1 (by decide)).1⟩

/-- C3: the archive object key is derived from (date, log sequence number)
and is injective in the sequence number for a fixed date, and re-invoking
the archive write for the same record leaves the stored bucket unchanged
after the second write (idempotence on retry). -/
theorem archive_idempotent (s : S3Store) (date seq : String)
    (rec : IngestRecord) :
    archive_to_s3 (archive_to_s3 s date rec seq) date rec seq =
        archive_to_s3 s date rec seq
    ∧ (∀ q1 q2 : String, archiveKey date q1 = archiveKey date q2 → q1 = q2)
    ∧ lookupStore (archive_to_s3 s date rec seq) (archiveKey date seq) =
        some rec := by
  refine ⟨?_, fun q1 q2 h => archiveKey_inj date q1 q2 h,
    lookupStore_putObject s (archiveKey date seq) rec⟩
  unfold archive_to_s3
  exact putObject_idem s (archiveKey date seq) rec

/-- C3 witness: a concrete double write on an empty bucket, plus key
injectivity applied at equal sequence numbers. -/
theorem archive_idempotent_witness :
    archive_to_s3 (archive_to_s3 [] "2025/10/11" sampleRecord "42")
        "2025/10/11" sampleRecord "42" =
      archive_to_s3 [] "2025/10/11" sampleRecord "42"
    ∧ ("42" : String) = "42" :=
  ⟨(archive_idempotent [] "2025/10/11" "42" sampleRecord).1,
   (archive_idempotent [] "2025/10/11" "42" sampleRecord).2.1 "42" "42" rfl⟩

/-- C4: the Dispatcher consumes the log in batches of 10 from the latest
position with 3 retry attempts; when an entry of a batch fails to decode,
the invocation stops there — the resulting state carries only the effects of
the entries before the failing one — and the whole invocation fails; under
the transport's retry policy the failing batch is attempted 1 + 3 times and
then surfaced as a failed invocation. -/
theorem dispatcher_batch_failure (decode : String → Option IngestRecord)
    (now : ℕ) (region date : String) (pre : List KinesisEntry)
    (e : KinesisEntry) (rest : List KinesisEntry) (st : ProcState)
    (hpre : ∀ x ∈ pre, (decode x.data).isSome = true)
    (he : decode e.data = none) :
    processEntries decode now region date (pre ++ e :: rest) st =
        HandlerResult.error (processOk decode now region date pre st)
    ∧ retryLoop dataProcessorEventSource.retryAttempts
        (fun _ => processEntries decode now region date (pre ++ e :: rest) st)
        0 =
        (1 + dataProcessorEventSource.retryAttempts,
         HandlerResult.error (processOk decode now region date pre st))
    ∧ dataProcessorEventSource.batchSize = 10
    ∧ dataProcessorEventSource.startingPosition = StartingPosition.LATEST
    ∧ dataProcessorEventSource.retryAttempts = 3 := by
  have h1 : processEntries decode now region date (pre ++ e :: rest) st =
      HandlerResult.error (processOk decode now region date pre st) := by
    rw [processEntries_append_ok decode now region date pre (e :: rest) st
      hpre]
    exact processEntries_error_head decode now region date e rest _ he
  refine ⟨h1, ?_, rfl, rfl, rfl⟩
  have h2 := retryLoop_const_error (processOk decode now region date pre st)
    (fun _ => processEntries decode now region date (pre ++ e :: rest) st)
    (fun _ => h1) 3 0
  simpa using h2

/-- C4 witness: a three-entry batch whose middle entry fails to decode; the
invocation fails with only the first entry's effects. -/
theorem dispatcher_batch_failure_witness :
    processEntries sampleDecode 0 "us-east-1" "2025/10/11"
        [⟨"good", "1"⟩, ⟨"oops", "2"⟩, ⟨"good", "3"⟩] ⟨[], []⟩ =
      HandlerResult.error
        (processOk sampleDecode 0 "us-east-1" "2025/10/11" [⟨"good", "1"⟩]
          ⟨[], []⟩) :=
  (dispatcher_batch_failure sampleDecode 0 "us-east-1" "2025/10/11"
    [⟨"good", "1"⟩] ⟨"oops", "2"⟩ [⟨"good", "3"⟩] ⟨[], []⟩ (by decide)
    (by decide)).1

/-- C8: a record whose metrics map is empty triggers no write_records call
at all (the durable sink is never invoked with an empty point sequence),
yet the record is still archived under the key derived from the date and
its sequence number, exactly like a non-empty record. -/
theorem empty_metrics_record (now : ℕ) (region date : String)
    (rec : IngestRecord) (hm : rec.metrics = [])
    (decode : String → Option IngestRecord) (e : KinesisEntry)
    (st : ProcState) (hd : decode e.data = some rec) :
    write_to_timestream now region rec = []
    ∧ processEntries decode now region date [e] st =
        HandlerResult.ok
          { tsCalls := st.tsCalls
            s3 := putObject st.s3 (archiveKey date e.sequenceNumber) rec }
    ∧ lookupStore (putObject st.s3 (archiveKey date e.sequenceNumber) rec)
        (archiveKey date e.sequenceNumber) = some rec := by
  have h1 : write_to_timestream now region rec = [] := by
    simp [write_to_timestream, buildRecords, hm]
  refine ⟨h1, ?_, lookupStore_putObject _ _ _⟩
  simp [processEntries, hd, stepRecord, archive_to_s3, h1]

/-- C8 witness: the empty-metrics sample record processed from an empty
state: no write call, record archived. -/
theorem empty_metrics_record_witness :
    processEntries sampleDecode 0 "us-east-1" "2025/10/11" [⟨"empty", "7"⟩]
        ⟨[], []⟩ =
      HandlerResult.ok
        { tsCalls := ([] : List (List TsRecord))
          s3 := putObject [] (archiveKey "2025/10/11" "7") emptyRecord } :=
  (empty_metrics_record 0 "us-east-1" "2025/10/11" emptyRecord rfl
    sampleDecode ⟨"empty", "7"⟩ ⟨[], []⟩ (by decide)).2.1

/-- C9: every point built from one record carries the record's single
processing-time timestamp: the clock value read once before the metrics
loop is the Time of every point, so all points of one record share one
timestamp. -/
theorem record_points_single_timestamp (now : ℕ) (region : String)
    (rec : IngestRecord) :
    (∀ p ∈ buildRecords now region rec, p.Time = now)
    ∧ (∀ p ∈ buildRecords now region rec, ∀ q ∈ buildRecords now region rec,
        p.Time = q.Time) := by
  have h : ∀ p ∈ buildRecords now region rec, p.Time = now := by
    intro p hp
    rcases List.mem_map.mp hp with ⟨m, _, rfl⟩
    rfl
  exact ⟨h, fun p hp q hq => (h p hp).trans (h q hq).symm⟩

/-- C9 witness: both points of the sample record carry the single clock
value 123. -/
theorem record_points_single_timestamp_witness :
    (⟨123, "MILLISECONDS", "temp", "21.5", "DOUBLE", "sensor-1",
        "us-east-1"⟩ : TsRecord).Time = 123
    ∧ (⟨123, "MILLISECONDS", "humidity", "bad", "DOUBLE", "sensor-1",
        "us-east-1"⟩ : TsRecord).Time = 123 :=
  ⟨(record_points_single_timestamp 123 "us-east-1" sampleRecord).1 _
     (by decide),
   (record_points_single_timestamp 123 "us-east-1" sampleRecord).1 _
     (by decide)⟩

end DataProcessor

namespace Monitoring

/-- C7: the declared alarms use N = 2 consecutive evaluation periods for the
connection-count and error-rate alarms and N = 1 for the throttle alarm, and
the connection-count alarm treats missing data as not breaching. Under the
evaluation semantics, a monitor reaches ALARM only if its trace contains N
consecutive breaching periods; a single period above threshold leaves an
N = 2 alarm in OK (never alarming on one noisy sample); two consecutive
periods above threshold move an N = 2 alarm from OK to ALARM; one period
above threshold already trips the N = 1 throttle alarm; and a missing-data
period leaves the connection-count alarm in OK. -/
theorem alerting_consecutive_breach :
    neptuneConnectionsAlarm.evaluationPeriods = 2
    ∧ lambdaErrorAlarm.evaluationPeriods = 2
    ∧ queryFunctionThrottlesAlarm.evaluationPeriods = 1
    ∧ neptuneConnectionsAlarm.treatMissingAsNotBreaching = true
    ∧ (∀ (cfg : AlarmConfig) (xs : List Sample),
        (runAlarm cfg alarmInit xs).state = AlarmState.ALARM →
          hasConsecRun cfg.evaluationPeriods (xs.map (breaches cfg)))
    ∧ (∀ cfg : AlarmConfig, cfg.evaluationPeriods = 2 →
        ∀ x : Sample, (alarmStep cfg alarmInit x).state = AlarmState.OK)
    ∧ (∀ cfg : AlarmConfig, cfg.evaluationPeriods = 2 →
        ∀ v1 v2 : ℚ, cfg.threshold < v1 → cfg.threshold < v2 →
          (runAlarm cfg alarmInit
            [Sample.value v1, Sample.value v2]).state = AlarmState.ALARM)
    ∧ (∀ v : ℚ, queryFunctionThrottlesAlarm.threshold < v →
        (alarmStep queryFunctionThrottlesAlarm alarmInit
          (Sample.value v)).state = AlarmState.ALARM)
    ∧ (∀ s : AlarmFsm, s.state = AlarmState.OK →
        (alarmStep neptuneConnectionsAlarm s Sample.missing).state =
          AlarmState.OK) := by
  refine ⟨rfl, rfl, rfl, rfl, fun cfg xs => (runAlarm_inv cfg xs).2,
    ?_, ?_, ?_, ?_⟩
  · intro cfg h2 x
    by_cases hb : breaches cfg x = true <;>
      simp [alarmStep, alarmInit, hb, h2]
  · intro cfg h2 v1 v2 h1 hv2
    simp [runAlarm, alarmStep, alarmInit, breaches, h2, h1, hv2]
  · intro v hv
    simp [alarmStep, alarmInit, breaches, queryFunctionThrottlesAlarm] at hv ⊢
    simp [hv]
  · intro s hs
    have hb : breaches neptuneConnectionsAlarm Sample.missing = false := rfl
    by_cases h : neptuneConnectionsAlarm.evaluationPeriods ≤ s.okStreak + 1 <;>
      simp [alarmStep, hb, h, hs]

/-- C7 witness: the error-rate alarm (threshold 5) stays OK after one
period at 6, alarms after two consecutive periods at 6 and 7; the throttle
alarm alarms after one period at 2; the connection-count alarm stays OK on
a missing-data period. -/
theorem alerting_consecutive_breach_witness :
    (alarmStep lambdaErrorAlarm alarmInit (Sample.value 6)).state =
        AlarmState.OK
    ∧ (runAlarm lambdaErrorAlarm alarmInit
        [Sample.value 6, Sample.value 7]).state = AlarmState.ALARM
    ∧ (alarmStep queryFunctionThrottlesAlarm alarmInit
        (Sample.value 2)).state = AlarmState.ALARM
    ∧ (alarmStep neptuneConnectionsAlarm alarmInit Sample.missing).state =
        AlarmState.OK :=
  ⟨alerting_consecutive_breach.2.2.2.2.2.1 lambdaErrorAlarm rfl
     (Sample.value 6),
   alerting_consecutive_breach.2.2.2.2.2.2.1 lambdaErrorAlarm rfl 6 7
     (by decide) (by decide),
   alerting_consecutive_breach.2.2.2.2.2.2.2.1 2 (by decide),
   alerting_consecutive_breach.2.2.2.2.2.2.2.2 alarmInit rfl⟩

end Monitoring
